import Mathlib

/-!
Verification of the ascoltino voice-transcription bot (`src/bot.py`,
`src/analyze_logs.py`) against its natural-language specification.

The pipeline is shallowly embedded: the configuration grid, the checkpoint
logic of the ingestion loop, the per-message pipeline (download, convert,
transcribe, report, cleanup), the edit-throttling closure of the progress
reporter, and the realtime-factor computations are translated to pure Lean
functions.  External collaborators (the messaging platform, ffmpeg, the
Whisper engine, the file system) are modelled by an explicit environment of
oracles, one outcome per update identifier, so that every run of the loop is
a deterministic function of the environment.
-/

namespace Ascoltino

/-- One transcription configuration: (model identifier, beam size, VAD flag,
thread count), as produced by `itertools.product` in `bot.py` line 59. -/
abbrev Config := String × Nat × Bool × Nat

/-- Embedding of `CONFIGS = list(product(BOT_MODELS, BEAM_SIZES, VAD_FILTERS,
THREADS_LIST))` (bot.py line 59): the Cartesian product in nested iteration
order, model outermost, thread count innermost (rightmost varies fastest,
exactly as `itertools.product`). -/
def CONFIGS (ms : List String) (bs : List Nat) (vs : List Bool) (ts : List Nat) :
    List Config :=
  ms.flatMap fun m => bs.flatMap fun b => vs.flatMap fun v => ts.map fun t => (m, b, v, t)

/-- Embedding of `MULTI_CONFIG_MODE = len(CONFIGS) > 1` (bot.py line 60). -/
def MULTI_CONFIG_MODE (ms : List String) (bs : List Nat) (vs : List Bool)
    (ts : List Nat) : Bool :=
  decide (1 < (CONFIGS ms bs vs ts).length)

/-- The four configuration lists plus derived primary values, mirroring
`BOT_MODELS`/`BEAM_SIZES`/`VAD_FILTERS`/`THREADS_LIST` (bot.py lines 47-50).
The program additionally derives `BOT_MODEL = BOT_MODELS[0]` etc. (lines
53-56), which crashes at startup if any list is empty, so a running program
always has nonempty lists. -/
structure GridSpec where
  models : List String
  beams : List Nat
  vads : List Bool
  threads : List Nat
  deriving DecidableEq, Repr

/-- The grid of a `GridSpec` (bot.py line 59). -/
def GridSpec.configs (g : GridSpec) : List Config :=
  CONFIGS g.models g.beams g.vads g.threads

/-- Whether the spec puts the bot in multi-config (fan-out) mode (line 60). -/
def GridSpec.multi (g : GridSpec) : Bool :=
  MULTI_CONFIG_MODE g.models g.beams g.vads g.threads

/-- `BOT_MODEL`, `BEAM_SIZE`, `VAD_FILTER`, `THREADS` (bot.py lines 53-56):
the first element of each list; `headI` returns the type default on an empty
list, a state the real program never reaches (it raises `IndexError`). -/
def GridSpec.primary (g : GridSpec) : Config :=
  (g.models.headI, g.beams.headI, g.vads.headI, g.threads.headI)

/-- Inbound message envelope: `update["message"]` with its `chat.id` and
optional `voice.file_id` fields (bot.py lines 339-344).  A missing field is
`none` and makes the corresponding dictionary lookup raise `KeyError`. -/
structure MessageEnv where
  chat : Option Int
  voice : Option String
  deriving DecidableEq, Repr

/-- One platform update: `update_id` plus optional `message` envelope. -/
structure Update where
  update_id : Nat
  message : Option MessageEnv
  deriving DecidableEq, Repr

/-- One timed text segment yielded by the transcription engine, tagged with
the wall-clock time (`time.time()`) at which its `on_segment` callback runs.
The throttle clock of bot.py line 381 starts at 0, so times are measured
from that origin. -/
structure Segment where
  text : String
  time : ℚ
  deriving DecidableEq, Repr

/-- Outcome of one `current_model.transcribe(...)` call plus the iteration
over its lazy segment stream (bot.py lines 206-223): either the engine
yields all segments and reports an audio duration (with the measured
wall-clock `elapsed`), or an exception interrupts the call after some prefix
of segments was already consumed (possibly none). -/
inductive EngineRun
  | yields (segs : List Segment) (duration : ℚ) (elapsed : ℚ)
  | failDuring (segs : List Segment)
  deriving DecidableEq, Repr

/-- Segments whose callbacks actually ran during an engine run. -/
def EngineRun.segs : EngineRun → List Segment
  | .yields s _ _ => s
  | .failDuring s => s

/-- The dictionary returned by `transcribe` on success (bot.py lines
230-238), minus the echoed configuration fields. -/
structure TResult where
  text : String
  duration : ℚ
  elapsed : ℚ
  deriving DecidableEq, Repr

/-- Outcome of `download_file` (bot.py lines 167-182): success creating the
temp file; failure before the local file was opened; or failure mid-stream,
after the local file was created, in which case the function still returns
`None` but the partial file remains on disk. -/
inductive DlOutcome
  | ok
  | failEarly
  | failLate
  deriving DecidableEq, Repr

/-- Oracle environment for all external collaborators, keyed by update
identifier so that a whole batch run is a deterministic function of it. -/
structure Env where
  persistOk : Nat → Bool
  download : Nat → DlOutcome
  convertOk : Nat → Bool
  engine : Nat → Config → EngineRun
  deleteOk : String → Bool

/-- Python `str.strip()`: drop whitespace from both ends of the string. -/
def pyStrip (s : String) : String :=
  ⟨((s.data.dropWhile Char.isWhitespace).reverse.dropWhile Char.isWhitespace).reverse⟩

/-- `full_text` accumulation of `transcribe` (bot.py line 217): each
segment's stripped text is appended followed by a single space. -/
def fullTextAux (segs : List Segment) : String :=
  segs.foldl (fun acc s => acc ++ pyStrip s.text ++ " ") ""

/-- The final `full_text = full_text.strip()` of `transcribe` (line 224). -/
def fullText (segs : List Segment) : String :=
  pyStrip (fullTextAux segs)

/-- Embedding of `transcribe` (bot.py lines 184-242): `None` when the engine
raised or when the accumulated text is empty, otherwise the result record. -/
def transcribeModel (run : EngineRun) : Option TResult :=
  match run with
  | .failDuring _ => none
  | .yields segs duration elapsed =>
      if fullText segs = "" then none
      else some ⟨fullText segs, duration, elapsed⟩

/-- The `speed` field of `format_stats_footer` (bot.py line 266):
`duration / elapsed if elapsed > 0 else 0` — the quantity rendered as the
multiplier in the footer. -/
def speedFactor (duration elapsed : ℚ) : ℚ :=
  if 0 < elapsed then duration / elapsed else 0

/-- The stats footer of `format_stats_footer` (bot.py lines 258-277), with
numeric string formatting abstracted to the exact rational quantities it
renders. -/
structure StatsFooter where
  elapsed : ℚ
  speed : ℚ
  config : Config
  deriving DecidableEq, Repr

/-- Build the footer for a result obtained with configuration `c`. -/
def format_stats_footer (duration elapsed : ℚ) (c : Config) : StatsFooter :=
  ⟨elapsed, speedFactor duration elapsed, c⟩

/-- Embedding of `realtime_factor` from `src/analyze_logs.py` lines 56-61:
`total_time_seconds / audio_duration_seconds` guarded by Python truthiness
of both optional floats (`None` or `0.0` yields `None`). -/
def realtime_factor (total_time audio_duration : Option ℚ) : Option ℚ :=
  match total_time, audio_duration with
  | some t, some d => if t ≠ 0 ∧ d ≠ 0 then some (t / d) else none
  | _, _ => none

/-- The texts offered to `on_segment` (bot.py lines 215-221): after each
segment the accumulated `full_text.strip()` is offered, paired with the
wall-clock time of the callback.  `acc` is the running unstripped buffer. -/
def offeredEditsAux (acc : String) : List Segment → List (String × ℚ)
  | [] => []
  | s :: rest =>
      let acc2 := acc ++ pyStrip s.text ++ " "
      (pyStrip acc2, s.time) :: offeredEditsAux acc2 rest

/-- All edits offered during a run (one per consumed segment). -/
def offeredEdits (segs : List Segment) : List (String × ℚ) :=
  offeredEditsAux "" segs

/-- `MIN_EDIT_INTERVAL = 0.5` (bot.py line 382). -/
def MIN_EDIT_INTERVAL : ℚ := 1 / 2

/-- The throttle of the `on_segment` closure (bot.py lines 384-388): an
offered edit at time `t` is transmitted iff `t - last ≥ MIN_EDIT_INTERVAL`,
where `last` is the time of the previous transmitted edit (initially 0);
dropped edits are never queued. -/
def throttleAux (last : ℚ) : List (String × ℚ) → List (String × ℚ)
  | [] => []
  | o :: rest =>
      if MIN_EDIT_INTERVAL ≤ o.2 - last then o :: throttleAux o.2 rest
      else throttleAux last rest

/-- Edits actually transmitted by the throttle, from `last_edit_time = 0`
(bot.py line 381). -/
def throttleRun (offers : List (String × ℚ)) : List (String × ℚ) :=
  throttleAux 0 offers

/-- One outbound interaction with the chat, in the order the code attempts
it.  Network failures of sends/edits are logged and swallowed by the source
(bot.py lines 280-311), so the model records what the code attempts. -/
inductive OutMsg
  | announce (n : Nat)
  | fanResult (idx : Nat) (text : String) (footer : StatsFooter)
  | fanFailed (idx : Nat) (config : Config)
  | placeholder
  | progressEdit (text : String)
  | finalEdit (text : String) (footer : StatsFooter)
  | failEdit
  deriving DecidableEq, Repr

/-- The single terminal edit of single-configuration mode (bot.py lines
392-398): the full text with stats footer on success, the fixed failure
text on a `None` result. -/
def finalMsg : Option TResult → Config → List OutMsg
  | some r, c => [OutMsg.finalEdit r.text (format_stats_footer r.duration r.elapsed c)]
  | none, _ => [OutMsg.failEdit]

/-- Messages of single-configuration mode (bot.py lines 377-398): the
placeholder, the throttled stream of progress edits, then exactly one final
edit. -/
def singleModeMsgs (run : EngineRun) (c : Config) : List OutMsg :=
  OutMsg.placeholder ::
    (throttleRun (offeredEdits run.segs)).map (fun p => OutMsg.progressEdit p.1) ++
    finalMsg (transcribeModel run) c

/-- The per-configuration message of fan-out mode (bot.py lines 367-375):
one success message with its own footer, or one failure notice. -/
def fanMsg (idx : Nat) (c : Config) : Option TResult → OutMsg
  | some r => OutMsg.fanResult idx r.text (format_stats_footer r.duration r.elapsed c)
  | none => OutMsg.fanFailed idx c

/-- The fan-out loop body (bot.py lines 355-375): configurations are
numbered from 1, and the loop always continues to the next configuration. -/
def fanAux (tr : Config → Option TResult) (idx : Nat) : List Config → List OutMsg
  | [] => []
  | c :: rest => fanMsg idx c (tr c) :: fanAux tr (idx + 1) rest

/-- Messages of fan-out mode (bot.py lines 350-375): the announcement naming
the configuration count, then one message per configuration in grid order. -/
def fanMsgs (tr : Config → Option TResult) (cfgs : List Config) : List OutMsg :=
  OutMsg.announce cfgs.length :: fanAux tr 1 cfgs

/-- `VOICE_FILE_PATH` (bot.py line 63, non-add-on environment). -/
def VOICE_FILE_PATH : String := "storage/voice.oga"

/-- Embedding of `cleanup_temp_files` (bot.py lines 314-322): for each
argument in order, delete the file if the argument is non-`None` and the
file exists; a failing delete is logged and skipped, the loop continues, and
the function always returns normally.  Returns the files actually removed. -/
def cleanup_temp_files (deleteOk : String → Bool) (existing : List String)
    (paths : List (Option String)) : List String :=
  match paths with
  | [] => []
  | none :: rest => cleanup_temp_files deleteOk existing rest
  | some f :: rest =>
      if f ∈ existing ∧ deleteOk f = true then
        f :: cleanup_temp_files deleteOk existing rest
      else cleanup_temp_files deleteOk existing rest

/-- The voice branch of the ingestion loop (bot.py lines 342-400), up to but
not including the `finally` cleanup: returns the attempted outbound
messages, the temporary files created on disk, and the `(voice_file,
wav_file)` pair later passed to `cleanup_temp_files` (line 403).  On a
download failure both are `None` (line 346), even when the partial file was
created. -/
def processVoice (env : Env) (g : GridSpec) (uid : Nat) :
    List OutMsg × List String × List (Option String) :=
  match env.download uid with
  | .failEarly => ([], [], [none, none])
  | .failLate => ([], [VOICE_FILE_PATH], [none, none])
  | .ok =>
      let voice := VOICE_FILE_PATH
      let wav := voice ++ ".wav"
      if env.convertOk uid then
        let msgs :=
          if g.multi then
            fanMsgs (fun c => transcribeModel (env.engine uid c)) g.configs
          else
            singleModeMsgs (env.engine uid g.primary) g.primary
        (msgs, [voice, wav], [some voice, some wav])
      else
        ([], [voice], [some voice, some wav])

/-- Result of processing one update after its checkpoint write succeeded:
`none` models an exception escaping to the per-update handler at bot.py line
407 (a malformed envelope raising `KeyError`); `some` carries the attempted
outbound messages, the temp files created, and the files removed by the
`finally` cleanup, which runs regardless of which step failed (line 401). -/
def dispatchUpdate (env : Env) (g : GridSpec) (u : Update) :
    Option (List OutMsg × List String × List String) :=
  match u.message with
  | none => none
  | some m =>
      match m.chat with
      | none => none
      | some _chat =>
          match m.voice with
          | none => some ([], [], [])
          | some _fid =>
              let (msgs, created, args) := processVoice env g u.update_id
              some (msgs, created, cleanup_temp_files env.deleteOk created args)

/-- An observable event of the ingestion loop: a successful checkpoint write
(`set_last_update_id`, bot.py line 337) or an attempted outbound message. -/
inductive Event
  | persist (n : Nat)
  | msg (m : OutMsg)
  deriving DecidableEq, Repr

/-- The outbound messages of a dispatch result (none for a caught
exception). -/
def dispatchedMsgs (r : Option (List OutMsg × List String × List String)) :
    List OutMsg :=
  match r with
  | none => []
  | some (msgs, _, _) => msgs

/-- Events of one iteration of the `for update in updates` body (bot.py
lines 333-408).  The checkpoint is persisted first (line 337, before any
dispatch); if persisting raises, the per-update handler catches it and the
rest of the body is skipped; likewise a malformed envelope is caught after
the persist.  All three paths fall through to the next update. -/
def processUpdate (env : Env) (g : GridSpec) (u : Update) : List Event :=
  if env.persistOk u.update_id then
    Event.persist u.update_id ::
      (dispatchedMsgs (dispatchUpdate env g u)).map Event.msg
  else []

/-- Events of draining one batch of updates in arrival order. -/
def batchEvents (env : Env) (g : GridSpec) : List Update → List Event
  | [] => []
  | u :: rest => processUpdate env g u ++ batchEvents env g rest

/-- Project a persist event to its checkpoint value. -/
def eventPersist? : Event → Option Nat
  | .persist n => some n
  | .msg _ => none

/-- Project a message event to its message. -/
def eventMsg? : Event → Option OutMsg
  | .persist _ => none
  | .msg m => some m

/-- The successfully persisted checkpoint values, in write order. -/
def persistTrace (evs : List Event) : List Nat :=
  evs.filterMap eventPersist?

/-- The outbound messages attempted, in order. -/
def sends (evs : List Event) : List OutMsg :=
  evs.filterMap eventMsg?

/-- Temporary files left on disk after one update is fully processed:
created minus removed (empty for a malformed envelope, which creates no
files before raising). -/
def residualFiles (env : Env) (g : GridSpec) (u : Update) : List String :=
  match dispatchUpdate env g u with
  | none => []
  | some (_, created, removed) => created.filter (fun f => ¬ f ∈ removed)

/-- The in-memory `last_update_id` after a batch (bot.py line 336): set
before the persist attempt, so it advances even when persisting fails. -/
def finalMemCheckpoint (c : Nat) : List Update → Nat
  | [] => c
  | u :: rest => finalMemCheckpoint u.update_id rest

/-- The offset expression of the polling loop (bot.py line 331):
`last_update_id + 1 if last_update_id else None` — Python truthiness of an
integer is `≠ 0`. -/
def pollOffset (last_update_id : Nat) : Option Nat :=
  if last_update_id ≠ 0 then some (last_update_id + 1) else none

/-- The offset actually placed in the request parameters by `get_updates`
(bot.py lines 156-158): `if offset: params["offset"] = offset` drops a
`None` or zero offset. -/
def effectiveOffset (offset : Option Nat) : Option Nat :=
  match offset with
  | none => none
  | some o => if o ≠ 0 then some o else none

/-- Modelled from the spec: the platform contract of `getUpdates` (spec §6
and §4.2) for the external messaging platform, which is not part of this
repository — when an offset is supplied, every returned update has
identifier at least the offset; without an offset all buffered updates may
be returned. -/
def getUpdatesContract (offset : Option Nat) (returned : List Update) : Prop :=
  match offset with
  | some o => ∀ u ∈ returned, o ≤ u.update_id
  | none => True

/-- Embedding of `main`'s startup-then-drain skeleton (bot.py lines
325-337): `get_last_update_id()` at line 328 is outside every handler, so a
read error aborts `main` before any polling; otherwise the batch is
drained. -/
def mainRun (readRes : Except String Nat) (env : Env) (g : GridSpec)
    (batch : List Update) : Except String (Nat × List Event) := do
  let c ← readRes
  pure (c, batchEvents env g batch)

/-- Messages that go through `editMessageText` in single-configuration mode
(progress edits, the final success edit, the failure edit) — the units
counted by the edit-rate bound. -/
def isEdit : OutMsg → Bool
  | .progressEdit _ => true
  | .finalEdit _ _ => true
  | .failEdit => true
  | _ => false

/-- Terminal user-visible outcomes: a per-configuration result or failure
notice in fan-out mode, or the final success/failure edit in single mode. -/
def isTerminalNotice : OutMsg → Bool
  | .fanResult _ _ _ => true
  | .fanFailed _ _ => true
  | .finalEdit _ _ => true
  | .failEdit => true
  | _ => false

/-- A singleton grid: single-configuration mode. -/
def gOne : GridSpec := ⟨["base"], [1], [false], [4]⟩

/-- A two-configuration grid: fan-out mode with configurations
`(tiny,1,false,4)` then `(base,1,false,4)`. -/
def gTwo : GridSpec := ⟨["tiny", "base"], [1], [false], [4]⟩

/-- A sample segment arriving at wall-clock time 1. -/
def segCiao : Segment := ⟨"ciao", 1⟩

/-- Environment in which every collaborator succeeds and the engine yields
one segment of a 10-unit audio in elapsed time 5/2. -/
def envAllOk : Env :=
  ⟨fun _ => true, fun _ => .ok, fun _ => true,
   fun _ _ => .yields [segCiao] 10 (5 / 2), fun _ => true⟩

/-- Like `envAllOk` but the checkpoint write for update 1 raises. -/
def envPersistFail1 : Env :=
  { envAllOk with persistOk := fun n => decide (n ≠ 1) }

/-- Like `envAllOk` but `ffmpeg` fails on every conversion. -/
def envConvertFail : Env :=
  { envAllOk with convertOk := fun _ => false }

/-- Like `envAllOk` but every download fails after the local partial file
was already created. -/
def envDlFailLate : Env :=
  { envAllOk with download := fun _ => .failLate }

/-- Like `envAllOk` but the engine raises for the `tiny` model and succeeds
for every other model. -/
def envFanMixed : Env :=
  { envAllOk with
    engine := fun _ c =>
      if c.1 = "tiny" then .failDuring [] else .yields [segCiao] 10 (5 / 2) }

/-- An update carrying a well-formed voice message. -/
def uVoice : Update := ⟨7, some ⟨some 10, some "fid"⟩⟩

/-- An update with no message envelope at all. -/
def uPlain (n : Nat) : Update := ⟨n, none⟩

/-- A malformed update: a voice attachment but no `chat` field, so
`message["chat"]["id"]` raises `KeyError`. -/
def uNoChat : Update := ⟨5, some ⟨none, some "fid"⟩⟩

/-! Helper lemmas about the ingestion loop. -/

lemma batchEvents_append (env : Env) (g : GridSpec) (l1 l2 : List Update) :
    batchEvents env g (l1 ++ l2) = batchEvents env g l1 ++ batchEvents env g l2 := by
  induction l1 with
  | nil => simp [batchEvents]
  | cons u rest ih => simp [batchEvents, ih]

lemma persistTrace_append (e1 e2 : List Event) :
    persistTrace (e1 ++ e2) = persistTrace e1 ++ persistTrace e2 := by
  simp [persistTrace]

lemma persistTrace_msgs (msgs : List OutMsg) :
    persistTrace (msgs.map Event.msg) = [] := by
  induction msgs with
  | nil => rfl
  | cons m rest ih => simp_all [persistTrace, eventPersist?]

lemma sends_append (e1 e2 : List Event) :
    sends (e1 ++ e2) = sends e1 ++ sends e2 := by
  simp [sends]

lemma sends_msgs (msgs : List OutMsg) : sends (msgs.map Event.msg) = msgs := by
  induction msgs with
  | nil => rfl
  | cons m rest ih => simpa [sends, eventMsg?] using ih

lemma processUpdate_ok (env : Env) (g : GridSpec) (u : Update)
    (hok : env.persistOk u.update_id = true) :
    processUpdate env g u =
      Event.persist u.update_id ::
        (dispatchedMsgs (dispatchUpdate env g u)).map Event.msg := by
  simp [processUpdate, hok]

lemma sends_processUpdate (env : Env) (g : GridSpec) (u : Update)
    (hok : env.persistOk u.update_id = true) :
    sends (processUpdate env g u) = dispatchedMsgs (dispatchUpdate env g u) := by
  rw [processUpdate_ok env g u hok]
  have h := sends_msgs (dispatchedMsgs (dispatchUpdate env g u))
  simp only [sends, List.filterMap_cons, eventPersist?, eventMsg?] at h ⊢
  exact h

lemma persistTrace_processUpdate (env : Env) (g : GridSpec) (u : Update)
    (hok : env.persistOk u.update_id = true) :
    persistTrace (processUpdate env g u) = [u.update_id] := by
  rw [processUpdate_ok env g u hok]
  have h := persistTrace_msgs (dispatchedMsgs (dispatchUpdate env g u))
  simp only [persistTrace, List.filterMap_cons, eventPersist?] at h ⊢
  rw [h]

lemma persistTrace_batch (env : Env) (g : GridSpec) (us : List Update)
    (hok : ∀ n, env.persistOk n = true) :
    persistTrace (batchEvents env g us) = us.map (fun u => u.update_id) := by
  induction us with
  | nil => rfl
  | cons u rest ih =>
      rw [show (u :: rest) = [u] ++ rest from rfl, batchEvents_append,
        persistTrace_append, ih]
      simp [batchEvents, persistTrace_processUpdate env g u (hok u.update_id)]

lemma getLast?_map_eq_finalMem (c0 : Nat) (us : List Update) (hne : us ≠ []) :
    (us.map (fun u => u.update_id)).getLast? = some (finalMemCheckpoint c0 us) := by
  induction us generalizing c0 with
  | nil => cases hne rfl
  | cons u rest ih =>
      cases rest with
      | nil => rfl
      | cons v rest2 =>
          have h := ih u.update_id (by simp)
          simpa [finalMemCheckpoint, List.getLast?] using h

/-- C1: for a batch of updates with strictly increasing identifiers and a
healthy checkpoint store, the sequence of persisted checkpoint values is
exactly the sequence of update identifiers; within each update the persist
event is emitted before any of that update's messages; the persisted trace
is monotonically non-decreasing; and after the batch is drained the last
persisted value equals the last-seen (in-memory) update identifier. -/
theorem spec_c1 (env : Env) (g : GridSpec) (us : List Update) (c0 : Nat)
    (hok : ∀ n, env.persistOk n = true)
    (hinc : us.Chain' (fun a b => a.update_id < b.update_id))
    (hne : us ≠ []) :
    persistTrace (batchEvents env g us) = us.map (fun u => u.update_id) ∧
    (∀ u ∈ us, ∃ tail, processUpdate env g u = Event.persist u.update_id :: tail) ∧
    List.Chain' (fun a b => a ≤ b) (persistTrace (batchEvents env g us)) ∧
    (persistTrace (batchEvents env g us)).getLast? = some (finalMemCheckpoint c0 us) := by
  have htrace := persistTrace_batch env g us hok
  refine ⟨htrace, ?_, ?_, ?_⟩
  · intro u _hu
    exact ⟨_, processUpdate_ok env g u (hok u.update_id)⟩
  · rw [htrace, List.chain'_map]
    exact hinc.imp fun _ _ h => le_of_lt h
  · rw [htrace]
    exact getLast?_map_eq_finalMem c0 us hne

/-- Witness for C1 on the concrete batch of updates 1 and 3. -/
theorem spec_c1_witness :
    persistTrace (batchEvents envAllOk gOne [uPlain 1, uPlain 3]) =
      [uPlain 1, uPlain 3].map (fun u => u.update_id) ∧
    (∀ u ∈ [uPlain 1, uPlain 3], ∃ tail,
      processUpdate envAllOk gOne u = Event.persist u.update_id :: tail) ∧
    List.Chain' (fun a b => a ≤ b)
      (persistTrace (batchEvents envAllOk gOne [uPlain 1, uPlain 3])) ∧
    (persistTrace (batchEvents envAllOk gOne [uPlain 1, uPlain 3])).getLast? =
      some (finalMemCheckpoint 0 [uPlain 1, uPlain 3]) :=
  spec_c1 envAllOk gOne [uPlain 1, uPlain 3] 0 (fun _ => rfl)
    (by simp [uPlain, List.chain'_cons]) (by decide)

/-- C10: an update whose envelope lacks the message or the chat field makes
the per-update body raise after the checkpoint write; the handler at bot.py
line 407 catches it, so no outbound message is attempted for that update,
its identifier is still the one persisted, and the surrounding batch is
processed exactly as if the bad update contributed only its persist event. -/
theorem spec_c10 (env : Env) (g : GridSpec) (u : Update)
    (hok : ∀ n, env.persistOk n = true)
    (hmal : u.message = none ∨ ∃ m, u.message = some m ∧ m.chat = none)
    (us1 us2 : List Update) :
    processUpdate env g u = [Event.persist u.update_id] ∧
    sends (processUpdate env g u) = [] ∧
    batchEvents env g (us1 ++ u :: us2) =
      batchEvents env g us1 ++ [Event.persist u.update_id] ++ batchEvents env g us2 := by
  have hdisp : dispatchUpdate env g u = none := by
    rcases hmal with h | ⟨m, hm, hc⟩
    · simp [dispatchUpdate, h]
    · simp [dispatchUpdate, hm, hc]
  have hproc : processUpdate env g u = [Event.persist u.update_id] := by
    simp [processUpdate, hok u.update_id, hdisp, dispatchedMsgs]
  refine ⟨hproc, by simp [hproc, sends, eventPersist?, eventMsg?], ?_⟩
  rw [batchEvents_append]
  simp [batchEvents, hproc]

/-- Witness for C10 on a concrete update that has a voice attachment but no
chat field, sitting between two well-formed updates. -/
theorem spec_c10_witness :
    processUpdate envAllOk gOne uNoChat = [Event.persist uNoChat.update_id] ∧
    sends (processUpdate envAllOk gOne uNoChat) = [] ∧
    batchEvents envAllOk gOne ([uPlain 1] ++ uNoChat :: [uPlain 9]) =
      batchEvents envAllOk gOne [uPlain 1] ++ [Event.persist uNoChat.update_id] ++
        batchEvents envAllOk gOne [uPlain 9] :=
  spec_c10 envAllOk gOne uNoChat (fun _ => rfl)
    (Or.inr ⟨⟨none, some "fid"⟩, rfl, rfl⟩) [uPlain 1] [uPlain 9]

/-- Counterexample to C2 as stated: in `envPersistFail1` the checkpoint
write for update 1 raises, yet the loop does not terminate — it is caught by
the per-update handler (bot.py line 407) and update 2 is still processed,
its checkpoint written.  So a checkpoint write failure is not fatal. -/
theorem spec_c2_cex :
    envPersistFail1.persistOk 1 = false ∧
    batchEvents envPersistFail1 gOne [uPlain 1, uPlain 2] = [Event.persist 2] := by
  constructor
  · rfl
  · rfl

/-- C2 amended: a checkpoint *read* failure at startup is fatal — `main`
aborts before draining any batch (bot.py line 328 is outside every handler);
but a checkpoint *write* failure during the loop is caught by the per-update
handler: the failing update contributes no events (it is not dispatched) and
the loop continues with the remaining updates. -/
theorem spec_c2 (e : String) (env : Env) (g : GridSpec) (batch : List Update)
    (u : Update) (us : List Update)
    (hfail : env.persistOk u.update_id = false) :
    mainRun (Except.error e) env g batch = Except.error e ∧
    batchEvents env g (u :: us) = batchEvents env g us := by
  constructor
  · rfl
  · simp [batchEvents, processUpdate, hfail]

/-- Witness for C2 (amended) on a concrete failing write. -/
theorem spec_c2_witness :
    mainRun (Except.error "io") envPersistFail1 gOne [uPlain 1, uPlain 2] =
      Except.error "io" ∧
    batchEvents envPersistFail1 gOne (uPlain 1 :: [uPlain 2]) =
      batchEvents envPersistFail1 gOne [uPlain 2] :=
  spec_c2 "io" envPersistFail1 gOne [uPlain 1, uPlain 2] (uPlain 1) [uPlain 2] rfl

/-- C4: the long-poll request carries offset `checkpoint + 1` exactly when
the checkpoint is positive and no offset otherwise (bot.py line 331 composed
with the `if offset:` guard of `get_updates`, lines 156-158); consequently,
under the platform contract for `getUpdates` and positive update
identifiers, no returned (hence no dispatched) update has an identifier at
or below the checkpoint. -/
theorem spec_c4 (c : Nat) (returned : List Update)
    (hcontract : getUpdatesContract (effectiveOffset (pollOffset c)) returned)
    (hpos : ∀ u ∈ returned, 1 ≤ u.update_id) :
    (0 < c → effectiveOffset (pollOffset c) = some (c + 1)) ∧
    (c = 0 → effectiveOffset (pollOffset c) = none) ∧
    (∀ u ∈ returned, c < u.update_id) := by
  cases c with
  | zero =>
      refine ⟨by omega, fun _ => rfl, fun u hu => ?_⟩
      exact lt_of_lt_of_le Nat.zero_lt_one (hpos u hu)
  | succ n =>
      have hoff : effectiveOffset (pollOffset (n + 1)) = some (n + 2) := by
        simp [pollOffset, effectiveOffset]
      refine ⟨fun _ => hoff, by omega, fun u hu => ?_⟩
      rw [hoff] at hcontract
      exact lt_of_lt_of_le (by omega) (hcontract u hu)

/-- Witness for C4 with checkpoint 5 and a returned batch respecting the
platform contract. -/
theorem spec_c4_witness :
    (0 < 5 → effectiveOffset (pollOffset 5) = some 6) ∧
    (5 = 0 → effectiveOffset (pollOffset 5) = none) ∧
    (∀ u ∈ [uPlain 6, uPlain 8], 5 < u.update_id) :=
  spec_c4 5 [uPlain 6, uPlain 8]
    (by simp [getUpdatesContract, effectiveOffset, pollOffset, uPlain])
    (by decide)

/-- Counterexample to C9 as stated: at audio duration 10 and elapsed 5/2 the
log analyzer's realtime factor is 1/4, but the quantity the stats footer
renders as its multiplier is `duration / elapsed` = 4, not 1/4 — the footer
renders the inverse of the realtime factor. -/
theorem spec_c9_cex :
    realtime_factor (some (5 / 2)) (some 10) = some (1 / 4) ∧
    (format_stats_footer 10 (5 / 2) ("base", 1, false, 4)).speed = 4 ∧
    ((4 : ℚ) = 1 / 4 → False) := by
  refine ⟨by norm_num [realtime_factor], ?_, by norm_num⟩
  norm_num [format_stats_footer, speedFactor]

/-- C9 amended: the realtime factor computed by `analyze_logs.py` equals
elapsed time divided by audio duration (1/4 at duration 10, elapsed 5/2),
while the stats footer of `bot.py` renders the reciprocal quantity
`duration / elapsed` as its speed multiplier. -/
theorem spec_c9 (elapsed duration : ℚ) (c : Config)
    (he : 0 < elapsed) (hd : 0 < duration) :
    realtime_factor (some elapsed) (some duration) = some (elapsed / duration) ∧
    (format_stats_footer duration elapsed c).speed = duration / elapsed ∧
    (elapsed / duration) * (duration / elapsed) = 1 := by
  refine ⟨?_, ?_, ?_⟩
  · simp [realtime_factor, ne_of_gt he, ne_of_gt hd]
  · simp [format_stats_footer, speedFactor, he]
  · field_simp

/-- Witness for C9 (amended) at duration 10, elapsed 5/2. -/
theorem spec_c9_witness :
    realtime_factor (some (5 / 2)) (some 10) = some ((5 / 2) / 10) ∧
    (format_stats_footer 10 (5 / 2) ("base", 1, false, 4)).speed = 10 / (5 / 2) ∧
    ((5 / 2 : ℚ) / 10) * (10 / (5 / 2)) = 1 :=
  spec_c9 (5 / 2) 10 ("base", 1, false, 4) (by norm_num) (by norm_num)

/-! Helper lemmas about the configuration grid. -/

lemma CONFIGS_eq_product (ms : List String) (bs : List Nat) (vs : List Bool)
    (ts : List Nat) : CONFIGS ms bs vs ts = ms ×ˢ (bs ×ˢ (vs ×ˢ ts)) := by
  simp [CONFIGS, SProd.sprod, List.product, List.map_flatMap, List.map_map,
    Function.comp_def]

lemma length_flatMap_const {α β : Type _} (f : α → List β) (n : ℕ) :
    ∀ (L : List α), (∀ a ∈ L, (f a).length = n) → (L.flatMap f).length = L.length * n
  | [], _ => by simp
  | a :: rest, h => by
      have ha : (f a).length = n := h a (List.mem_cons_self a rest)
      have ih := length_flatMap_const f n rest (fun x hx => h x (List.mem_cons_of_mem a hx))
      simp [ha, ih, Nat.succ_mul, Nat.add_comm]

lemma mul_add_lt {i a j b : ℕ} (hi : i < a) (hj : j < b) : i * b + j < a * b :=
  calc i * b + j < i * b + b := by omega
    _ = (i + 1) * b := by ring
    _ ≤ a * b := Nat.mul_le_mul_right b (by omega)

lemma flatMap_getElem?_const {α β : Type _} (f : α → List β) (n : ℕ) :
    ∀ (L : List α) (i j : ℕ), (∀ a ∈ L, (f a).length = n) → j < n →
      ∀ (hi : i < L.length), (L.flatMap f)[i * n + j]? = (f L[i])[j]?
  | [], i, j, _, _, hi => by simp at hi
  | a :: rest, 0, j, h, hj, hi => by
      have ha : (f a).length = n := h a (List.mem_cons_self a rest)
      rw [List.flatMap_cons, List.getElem?_append]
      simp [ha, hj]
  | a :: rest, i + 1, j, h, hj, hi => by
      have ha : (f a).length = n := h a (List.mem_cons_self a rest)
      have ih := flatMap_getElem?_const f n rest i j
        (fun x hx => h x (List.mem_cons_of_mem a hx)) hj (by simpa using hi)
      rw [List.flatMap_cons]
      have hidx : (i + 1) * n + j = (f a).length + (i * n + j) := by rw [ha]; ring
      rw [hidx, List.getElem?_append]
      simpa using ih

/-- Counterexample to C5 as stated: with the duplicated model list
`["base", "base"]` (environment value `BOT_MODEL="base,base"`), the grid is
not a list of distinct configurations. -/
theorem spec_c5_cex : ¬ (CONFIGS ["base", "base"] [1] [false] [4]).Nodup := by
  decide

/-- C5 amended: provided each of the four input lists is nonempty (the
program indexes element 0 of each at startup) and duplicate-free, the grid
is exactly the Cartesian product: membership is componentwise, its length is
the product of the four lengths, its entries are distinct, entry number
`((im·n2 + ib)·n3 + iv)·n4 + it` is the expected combination (model
outermost, thread count innermost), and the pipeline is in
single-configuration mode (fan-out off) iff the grid has exactly one
entry. -/
theorem spec_c5 (ms : List String) (bs : List Nat) (vs : List Bool) (ts : List Nat)
    (hm : ms.Nodup) (hb : bs.Nodup) (hv : vs.Nodup) (ht : ts.Nodup)
    (hm0 : ms ≠ []) (hb0 : bs ≠ []) (hv0 : vs ≠ []) (ht0 : ts ≠ []) :
    (∀ x : Config, x ∈ CONFIGS ms bs vs ts ↔
      x.1 ∈ ms ∧ x.2.1 ∈ bs ∧ x.2.2.1 ∈ vs ∧ x.2.2.2 ∈ ts) ∧
    (CONFIGS ms bs vs ts).length = ms.length * bs.length * vs.length * ts.length ∧
    (CONFIGS ms bs vs ts).Nodup ∧
    (∀ im ib iv it (him : im < ms.length) (hib : ib < bs.length)
      (hiv : iv < vs.length) (hit : it < ts.length),
      (CONFIGS ms bs vs ts)[((im * bs.length + ib) * vs.length + iv) * ts.length + it]? =
        some (ms[im], bs[ib], vs[iv], ts[it])) ∧
    (MULTI_CONFIG_MODE ms bs vs ts = false ↔ (CONFIGS ms bs vs ts).length = 1) := by
  have hlen : (CONFIGS ms bs vs ts).length =
      ms.length * bs.length * vs.length * ts.length := by
    rw [CONFIGS_eq_product]
    simp [List.length_product]
    ring
  refine ⟨?_, hlen, ?_, ?_, ?_⟩
  · rintro ⟨m, b, v, t⟩
    rw [CONFIGS_eq_product]
    simp
  · rw [CONFIGS_eq_product]
    exact hm.product (hb.product (hv.product ht))
  · intro im ib iv it him hib hiv hit
    have hG : ∀ m b, ((vs.flatMap fun v => ts.map fun t => (m, b, v, t)) : List Config).length =
        vs.length * ts.length := by
      intro m b
      exact length_flatMap_const _ ts.length vs (fun v _ => by simp)
    have hF : ∀ m ∈ ms,
        ((bs.flatMap fun b => vs.flatMap fun v => ts.map fun t => (m, b, v, t)) :
          List Config).length = bs.length * (vs.length * ts.length) := by
      intro m _
      exact length_flatMap_const _ (vs.length * ts.length) bs (fun b _ => hG m b)
    have hidx : ((im * bs.length + ib) * vs.length + iv) * ts.length + it =
        im * (bs.length * (vs.length * ts.length)) +
          (ib * (vs.length * ts.length) + (iv * ts.length + it)) := by ring
    have hj2 : iv * ts.length + it < vs.length * ts.length := mul_add_lt hiv hit
    have hj1 : ib * (vs.length * ts.length) + (iv * ts.length + it) <
        bs.length * (vs.length * ts.length) := mul_add_lt hib hj2
    rw [show CONFIGS ms bs vs ts =
        ms.flatMap (fun m => bs.flatMap fun b => vs.flatMap fun v =>
          ts.map fun t => (m, b, v, t)) from rfl, hidx,
      flatMap_getElem?_const _ _ ms im _ hF hj1 him,
      flatMap_getElem?_const _ _ bs ib _ (fun b _ => hG _ b) hj2 hib,
      flatMap_getElem?_const _ _ vs iv _ (fun v _ => by simp) hit hiv]
    simp [List.getElem?_map, List.getElem?_eq_getElem hit]
  · have hpos : 0 < (CONFIGS ms bs vs ts).length := by
      rw [hlen]
      have h1 := List.length_pos.mpr hm0
      have h2 := List.length_pos.mpr hb0
      have h3 := List.length_pos.mpr hv0
      have h4 := List.length_pos.mpr ht0
      positivity
    constructor
    · intro h
      have := of_decide_eq_false h
      omega
    · intro h
      simp [MULTI_CONFIG_MODE, h]

/-- Witness for C5 (amended) on the concrete grid of `gTwo`. -/
theorem spec_c5_witness :
    (∀ x : Config, x ∈ CONFIGS ["tiny", "base"] [1] [false] [4] ↔
      x.1 ∈ ["tiny", "base"] ∧ x.2.1 ∈ [1] ∧ x.2.2.1 ∈ [false] ∧ x.2.2.2 ∈ [4]) ∧
    (CONFIGS ["tiny", "base"] [1] [false] [4]).length = 2 * 1 * 1 * 1 ∧
    (CONFIGS ["tiny", "base"] [1] [false] [4]).Nodup ∧
    (∀ im ib iv it (him : im < 2) (hib : ib < 1) (hiv : iv < 1) (hit : it < 1),
      (CONFIGS ["tiny", "base"] [1] [false] [4])[((im * 1 + ib) * 1 + iv) * 1 + it]? =
        some ((["tiny", "base"])[im], ([1] : List Nat)[ib], ([false] : List Bool)[iv],
          ([4] : List Nat)[it])) ∧
    (MULTI_CONFIG_MODE ["tiny", "base"] [1] [false] [4] = false ↔
      (CONFIGS ["tiny", "base"] [1] [false] [4]).length = 1) := by
  have h := spec_c5 ["tiny", "base"] [1] [false] [4]
    (by decide) (by decide) (by decide) (by decide)
    (by decide) (by decide) (by decide) (by decide)
  simpa using h

/-! Helper lemmas about the edit throttle. -/

lemma throttleAux_sublist : ∀ (offers : List (String × ℚ)) (last : ℚ),
    (throttleAux last offers).Sublist offers
  | [], _ => List.Sublist.refl []
  | o :: rest, last => by
      by_cases h : MIN_EDIT_INTERVAL ≤ o.2 - last
      · simp only [throttleAux, if_pos h]
        exact (throttleAux_sublist rest o.2).cons₂ o
      · simp only [throttleAux, if_neg h]
        exact (throttleAux_sublist rest last).cons o

lemma throttleAux_chain : ∀ (offers : List (String × ℚ)) (last : ℚ) (x : String × ℚ),
    x.2 = last →
    List.Chain' (fun a b => MIN_EDIT_INTERVAL ≤ b.2 - a.2) (x :: throttleAux last offers)
  | [], _, _, _ => List.chain'_singleton _
  | o :: rest, last, x, hx => by
      by_cases h : MIN_EDIT_INTERVAL ≤ o.2 - last
      · simp only [throttleAux, if_pos h]
        exact List.chain'_cons.mpr ⟨by rw [hx]; exact h, throttleAux_chain rest o.2 o rfl⟩
      · simp only [throttleAux, if_neg h]
        exact throttleAux_chain rest last x hx

lemma throttleAux_length_le (D : ℚ) : ∀ (offers : List (String × ℚ)) (last : ℚ),
    (∀ o ∈ offers, o.2 ≤ D) →
    throttleAux last offers = [] ∨
      ((throttleAux last offers).length : ℚ) ≤ 2 * (D - last)
  | [], _, _ => Or.inl rfl
  | o :: rest, last, h => by
      have ho : o.2 ≤ D := h o (List.mem_cons_self o rest)
      have hrest : ∀ x ∈ rest, x.2 ≤ D := fun x hx => h x (List.mem_cons_of_mem o hx)
      by_cases hc : MIN_EDIT_INTERVAL ≤ o.2 - last
      · have hc2 : (1 : ℚ) / 2 ≤ o.2 - last := hc
        simp only [throttleAux, if_pos hc]
        right
        rcases throttleAux_length_le D rest o.2 hrest with hnil | hle
        · rw [hnil]
          simp only [List.length_singleton, Nat.cast_one]
          linarith
        · simp only [List.length_cons]
          push_cast
          linarith
      · simp only [throttleAux, if_neg hc]
        exact throttleAux_length_le D rest last hrest

lemma throttleRun_length_le (offers : List (String × ℚ)) (D : ℚ)
    (h : ∀ o ∈ offers, o.2 ≤ D) :
    (throttleRun offers).length ≤ (Int.ceil (D / MIN_EDIT_INTERVAL)).toNat := by
  rcases throttleAux_length_le D offers 0 h with hnil | hle
  · simp [throttleRun, hnil]
  · have h2 : ((throttleRun offers).length : ℚ) ≤ 2 * D := by
      simpa [throttleRun] using hle
    have hdiv : D / MIN_EDIT_INTERVAL = 2 * D := by
      rw [MIN_EDIT_INTERVAL]
      ring
    have hceil : (2 * D : ℚ) ≤ ((Int.ceil (D / MIN_EDIT_INTERVAL) : ℤ) : ℚ) := by
      rw [hdiv] at *
      exact Int.le_ceil (2 * D)
    have hz : ((throttleRun offers).length : ℤ) ≤ Int.ceil (D / MIN_EDIT_INTERVAL) := by
      exact_mod_cast le_trans h2 hceil
    omega

lemma offeredEditsAux_time_mem : ∀ (segs : List Segment) (acc : String)
    (o : String × ℚ), o ∈ offeredEditsAux acc segs → ∃ s ∈ segs, o.2 = s.time
  | [], _, o, ho => by simp [offeredEditsAux] at ho
  | s :: rest, acc, o, ho => by
      simp only [offeredEditsAux, List.mem_cons] at ho
      rcases ho with ho | ho
      · exact ⟨s, List.mem_cons_self s rest, by rw [ho]⟩
      · obtain ⟨x, hx, hxt⟩ :=
          offeredEditsAux_time_mem rest (acc ++ pyStrip s.text ++ " ") o ho
        exact ⟨x, List.mem_cons_of_mem s hx, hxt⟩

/-- C6: in single-configuration mode, with all segment callbacks occurring
at wall-clock times at most `D` on the throttle clock (which starts at 0,
bot.py line 381), successive transmitted edits are at least
`MIN_EDIT_INTERVAL` apart (the first at least that much after clock start);
transmitted edits are a subsequence of the offered ones (dropped, never
queued); at most `⌈D / MIN_EDIT_INTERVAL⌉ + 1` edits are transmitted in
total including the terminal one; and the terminal edit — which bypasses
the throttle — is the last message and carries the full concatenated text
with the stats footer. -/
theorem spec_c6 (segs : List Segment) (dur elapsed D : ℚ) (c : Config)
    (htime : ∀ s ∈ segs, s.time ≤ D)
    (hne : fullText segs ≠ "") :
    List.Chain' (fun a b => MIN_EDIT_INTERVAL ≤ b.2 - a.2)
      ((("", 0) : String × ℚ) :: throttleRun (offeredEdits segs)) ∧
    (throttleRun (offeredEdits segs)).Sublist (offeredEdits segs) ∧
    ((singleModeMsgs (EngineRun.yields segs dur elapsed) c).filter isEdit).length ≤
      (Int.ceil (D / MIN_EDIT_INTERVAL)).toNat + 1 ∧
    (singleModeMsgs (EngineRun.yields segs dur elapsed) c).getLast? =
      some (OutMsg.finalEdit (fullText segs) (format_stats_footer dur elapsed c)) := by
  have hoff : ∀ o ∈ offeredEdits segs, o.2 ≤ D := by
    intro o ho
    obtain ⟨s, hs, ht⟩ := offeredEditsAux_time_mem segs "" o ho
    rw [ht]
    exact htime s hs
  have hres : transcribeModel (EngineRun.yields segs dur elapsed) =
      some ⟨fullText segs, dur, elapsed⟩ := by
    simp [transcribeModel, hne]
  refine ⟨throttleAux_chain (offeredEdits segs) 0 ("", 0) rfl,
    throttleAux_sublist (offeredEdits segs) 0, ?_, ?_⟩
  · have hcount :
        ((singleModeMsgs (EngineRun.yields segs dur elapsed) c).filter isEdit).length =
          (throttleRun (offeredEdits segs)).length + 1 := by
      simp [singleModeMsgs, hres, EngineRun.segs, finalMsg, isEdit,
        List.filter_append, List.filter_map, Function.comp_def]
    rw [hcount]
    exact Nat.add_le_add_right (throttleRun_length_le (offeredEdits segs) D hoff) 1
  · simp only [singleModeMsgs, hres, EngineRun.segs, finalMsg]
    rw [List.getLast?_concat]

/-- Witness for C6 on a single segment arriving at time 1 within horizon 2. -/
theorem spec_c6_witness :
    List.Chain' (fun a b => MIN_EDIT_INTERVAL ≤ b.2 - a.2)
      ((("", 0) : String × ℚ) :: throttleRun (offeredEdits [segCiao])) ∧
    (throttleRun (offeredEdits [segCiao])).Sublist (offeredEdits [segCiao]) ∧
    ((singleModeMsgs (EngineRun.yields [segCiao] 10 (5 / 2))
        ("base", 1, false, 4)).filter isEdit).length ≤
      (Int.ceil ((2 : ℚ) / MIN_EDIT_INTERVAL)).toNat + 1 ∧
    (singleModeMsgs (EngineRun.yields [segCiao] 10 (5 / 2))
        ("base", 1, false, 4)).getLast? =
      some (OutMsg.finalEdit (fullText [segCiao])
        (format_stats_footer 10 (5 / 2) ("base", 1, false, 4))) :=
  spec_c6 [segCiao] 10 (5 / 2) 2 ("base", 1, false, 4)
    (by intro s hs; simp [segCiao] at hs; simp [hs]) (by decide)

/-! Helper lemmas about the per-message pipeline. -/

lemma fanAux_terminal (tr : Config → Option TResult) :
    ∀ (cfgs : List Config) (idx : Nat), cfgs ≠ [] →
      ∃ m, (fanAux tr idx cfgs).getLast? = some m ∧ isTerminalNotice m = true
  | [], _, h => absurd rfl h
  | [c], idx, _ => by
      refine ⟨fanMsg idx c (tr c), by simp [fanAux], ?_⟩
      cases h : tr c <;> simp [fanMsg, isTerminalNotice]
  | c :: c2 :: rest, idx, _ => by
      obtain ⟨m, hm, ht⟩ := fanAux_terminal tr (c2 :: rest) (idx + 1) (by simp)
      refine ⟨m, ?_, ht⟩
      have hunf : fanAux tr idx (c :: c2 :: rest) =
          fanMsg idx c (tr c) :: fanMsg (idx + 1) c2 (tr c2) :: fanAux tr (idx + 2) rest := rfl
      rw [hunf, List.getLast?_cons_cons]
      exact hm

lemma sends_processUpdate_voice (env : Env) (g : GridSpec) (u : Update)
    (m : MessageEnv) (chat : Int) (fid : String)
    (hm : u.message = some m) (hchat : m.chat = some chat)
    (hvoice : m.voice = some fid)
    (hok : env.persistOk u.update_id = true)
    (hdl : env.download u.update_id = DlOutcome.ok)
    (hcv : env.convertOk u.update_id = true) :
    sends (processUpdate env g u) =
      if g.multi then
        fanMsgs (fun c => transcribeModel (env.engine u.update_id c)) g.configs
      else singleModeMsgs (env.engine u.update_id g.primary) g.primary := by
  rw [sends_processUpdate env g u hok]
  by_cases hmulti : g.multi = true <;>
    simp [dispatchUpdate, hm, hchat, hvoice, processVoice, hdl, hcv, hmulti,
      dispatchedMsgs]

/-- Counterexample to C3 as stated: in `envConvertFail` the download of
update 7's voice message succeeds but the conversion fails, and the code
only logs (bot.py line 400) — no outbound message of any kind is attempted,
a silent disappearance. -/
theorem spec_c3_cex :
    envConvertFail.download 7 = DlOutcome.ok ∧
    envConvertFail.convertOk 7 = false ∧
    sends (processUpdate envConvertFail gOne uVoice) = [] := by
  refine ⟨rfl, rfl, ?_⟩
  rfl

/-- C3 amended: every voice message whose download **and** conversion both
succeed yields a terminal user-visible message — the transcribed text or an
explicit failure notice — as the last attempted outbound message, in both
single-configuration and fan-out mode; a conversion failure, by contrast,
is silent (see the counterexample). -/
theorem spec_c3 (env : Env) (g : GridSpec) (u : Update) (m : MessageEnv)
    (chat : Int) (fid : String)
    (hm : u.message = some m) (hchat : m.chat = some chat)
    (hvoice : m.voice = some fid)
    (hok : env.persistOk u.update_id = true)
    (hdl : env.download u.update_id = DlOutcome.ok)
    (hcv : env.convertOk u.update_id = true)
    (hcfg : g.configs ≠ []) :
    sends (processUpdate env g u) ≠ [] ∧
    ∃ m2, (sends (processUpdate env g u)).getLast? = some m2 ∧
      isTerminalNotice m2 = true := by
  rw [sends_processUpdate_voice env g u m chat fid hm hchat hvoice hok hdl hcv]
  by_cases hmulti : g.multi = true
  · rw [if_pos hmulti]
    obtain ⟨m2, hlast, hterm⟩ :=
      fanAux_terminal (fun c => transcribeModel (env.engine u.update_id c)) g.configs 1 hcfg
    cases hc : g.configs with
    | nil => exact absurd hc hcfg
    | cons c rest =>
        rw [hc] at hlast
        refine ⟨by simp [fanMsgs], ⟨m2, ?_, hterm⟩⟩
        have hunf : fanMsgs (fun c => transcribeModel (env.engine u.update_id c))
            (c :: rest) = OutMsg.announce (c :: rest).length ::
              fanMsg 1 c (transcribeModel (env.engine u.update_id c)) ::
                fanAux (fun c => transcribeModel (env.engine u.update_id c)) 2 rest := rfl
        rw [hunf, List.getLast?_cons_cons]
        exact hlast
  · rw [if_neg hmulti]
    cases hres : transcribeModel (env.engine u.update_id g.primary) with
    | none =>
        refine ⟨by simp [singleModeMsgs], ⟨OutMsg.failEdit, ?_, rfl⟩⟩
        simp only [singleModeMsgs, hres, finalMsg]
        rw [List.getLast?_concat]
    | some r =>
        refine ⟨by simp [singleModeMsgs],
          ⟨OutMsg.finalEdit r.text (format_stats_footer r.duration r.elapsed g.primary),
            ?_, rfl⟩⟩
        simp only [singleModeMsgs, hres, finalMsg]
        rw [List.getLast?_concat]

/-- Witness for C3 (amended): download and conversion succeed, the engine
yields one segment, and the final edit is the terminal message. -/
theorem spec_c3_witness :
    sends (processUpdate envAllOk gOne uVoice) ≠ [] ∧
    ∃ m2, (sends (processUpdate envAllOk gOne uVoice)).getLast? = some m2 ∧
      isTerminalNotice m2 = true :=
  spec_c3 envAllOk gOne uVoice ⟨some 10, some "fid"⟩ 10 "fid"
    rfl rfl rfl rfl rfl rfl (by decide)

/-- C7: in fan-out mode with exactly two configurations where the engine
fails on the first and succeeds on the second, the attempted outbound
messages are exactly the announcement, one failure notice for configuration
1 and one success message for configuration 2, in configuration order — and
the batch loop proceeds to the remaining updates afterwards. -/
theorem spec_c7 (env : Env) (g : GridSpec) (u : Update) (m : MessageEnv)
    (chat : Int) (fid : String) (c1 c2 : Config) (s1 segs2 : List Segment)
    (d e : ℚ)
    (hm : u.message = some m) (hchat : m.chat = some chat)
    (hvoice : m.voice = some fid)
    (hok : env.persistOk u.update_id = true)
    (hdl : env.download u.update_id = DlOutcome.ok)
    (hcv : env.convertOk u.update_id = true)
    (hcfgs : g.configs = [c1, c2])
    (he1 : env.engine u.update_id c1 = EngineRun.failDuring s1)
    (he2 : env.engine u.update_id c2 = EngineRun.yields segs2 d e)
    (hne : fullText segs2 ≠ "") (rest : List Update) :
    sends (processUpdate env g u) =
      [OutMsg.announce 2, OutMsg.fanFailed 1 c1,
       OutMsg.fanResult 2 (fullText segs2) (format_stats_footer d e c2)] ∧
    batchEvents env g (u :: rest) = processUpdate env g u ++ batchEvents env g rest := by
  have hmulti : g.multi = true := by
    have h : g.multi = decide (1 < g.configs.length) := rfl
    rw [h, hcfgs]
    rfl
  constructor
  · rw [sends_processUpdate_voice env g u m chat fid hm hchat hvoice hok hdl hcv,
      if_pos hmulti, hcfgs]
    simp [fanMsgs, fanAux, fanMsg, he1, he2, transcribeModel, hne]
  · rfl

/-- Witness for C7 on `envFanMixed` and the two-configuration grid `gTwo`. -/
theorem spec_c7_witness :
    sends (processUpdate envFanMixed gTwo uVoice) =
      [OutMsg.announce 2, OutMsg.fanFailed 1 ("tiny", 1, false, 4),
       OutMsg.fanResult 2 (fullText [segCiao])
         (format_stats_footer 10 (5 / 2) ("base", 1, false, 4))] ∧
    batchEvents envFanMixed gTwo (uVoice :: [uPlain 9]) =
      processUpdate envFanMixed gTwo uVoice ++ batchEvents envFanMixed gTwo [uPlain 9] :=
  spec_c7 envFanMixed gTwo uVoice ⟨some 10, some "fid"⟩ 10 "fid"
    ("tiny", 1, false, 4) ("base", 1, false, 4) [] [segCiao] 10 (5 / 2)
    rfl rfl rfl rfl rfl rfl (by decide) rfl rfl (by decide)
    [uPlain 9]

/-- Counterexample to C8 as stated: when the download fails after the local
file was created (`DlOutcome.failLate`), `download_file` returns `None`,
cleanup receives `(None, None)` and deletes nothing — one residual
temporary file remains even though every delete would have succeeded. -/
theorem spec_c8_cex :
    envDlFailLate.deleteOk VOICE_FILE_PATH = true ∧
    residualFiles envDlFailLate gOne uVoice = [VOICE_FILE_PATH] := by
  refine ⟨rfl, ?_⟩
  rfl

/-- C8 amended: for every voice message whose download does not fail after
creating the local file, the `finally` cleanup removes every temporary file
created — whether the download failed early, the conversion failed, the
transcription failed, or everything succeeded — leaving zero residual
files when deletion succeeds; and cleanup failures are never re-raised: the
per-message body returns normally for every deletion oracle. -/
theorem spec_c8 (env : Env) (g : GridSpec) (u : Update) (m : MessageEnv)
    (chat : Int) (fid : String)
    (hm : u.message = some m) (hchat : m.chat = some chat)
    (hvoice : m.voice = some fid)
    (hdl : env.download u.update_id ≠ DlOutcome.failLate)
    (hdel : ∀ f, env.deleteOk f = true) :
    residualFiles env g u = [] ∧
    (∀ delOk2 : String → Bool,
      (dispatchUpdate { env with deleteOk := delOk2 } g u).isSome = true) := by
  constructor
  · cases hdna : env.download u.update_id with
    | failLate => exact absurd hdna hdl
    | failEarly =>
        simp [residualFiles, dispatchUpdate, hm, hchat, hvoice, processVoice, hdna]
    | ok =>
        by_cases hcv : env.convertOk u.update_id = true
        · simp [residualFiles, dispatchUpdate, hm, hchat, hvoice, processVoice,
            hdna, hcv, cleanup_temp_files, hdel, VOICE_FILE_PATH]
        · simp [residualFiles, dispatchUpdate, hm, hchat, hvoice, processVoice,
            hdna, hcv, cleanup_temp_files, hdel, VOICE_FILE_PATH]
  · intro delOk2
    cases hdna : env.download u.update_id with
    | failLate => exact absurd hdna hdl
    | failEarly => simp [dispatchUpdate, hm, hchat, hvoice, processVoice, hdna]
    | ok =>
        by_cases hcv : env.convertOk u.update_id = true <;>
          simp [dispatchUpdate, hm, hchat, hvoice, processVoice, hdna, hcv]

/-- Witness for C8 (amended): conversion fails, the downloaded file is
still cleaned up, and the body returns normally for an always-failing
deletion oracle too. -/
theorem spec_c8_witness :
    residualFiles envConvertFail gOne uVoice = [] ∧
    (∀ delOk2 : String → Bool,
      (dispatchUpdate { envConvertFail with deleteOk := delOk2 } gOne uVoice).isSome =
        true) :=
  spec_c8 envConvertFail gOne uVoice ⟨some 10, some "fid"⟩ 10 "fid"
    rfl rfl rfl (by decide) (fun _ => rfl)

end Ascoltino
